import Mathlib

/-!
# Verification of the outage-notification script

A shallow embedding of `src/scripts/slack-notification.ts`, together with
proofs about its reconstruction of ongoing outages (`findCurrentOutages`)
and its alert-decision pipeline (`sendSlackNotification`).

Timestamps are modelled as `Nat` (milliseconds since epoch, the value of
`Date.getTime()`); durations as `Int`, since the script computes
`now - startTime` which can be negative when an observation carries a
timestamp in the future.  JavaScript `Map`s and plain objects keyed by
service name are modelled as association lists that keep insertion order,
with `set` updating in place and appending fresh keys at the end, exactly
as a JS `Map` does.
-/

namespace StatusRepo

/-- Modelled from the spec: the status enumeration of a `ServiceCheck`
(`src/lib/types` is not part of the sources; §3 of the design document
declares `status: enum{ok, error}`). -/
inductive Status where
  | ok : Status
  | error : Status
deriving DecidableEq, Repr

/-- Modelled from the spec: one per-service entry of an observation
(`ServiceCheck` in `src/lib/types`): service name, status, and an optional
error message (present only for failing checks, and possibly empty). -/
structure ServiceCheck where
  service : String
  status : Status
  error : Option String
deriving DecidableEq, Repr

/-- Modelled from the spec: one timestamped observation (`StatusCheck` in
`src/lib/types`): an instant plus the list of per-service checks. -/
structure StatusCheck where
  timestamp : Nat
  checks : List ServiceCheck
deriving DecidableEq, Repr

/-- The transient per-service state kept in the `serviceStatus` map of
`findCurrentOutages`: the JS object `{status, since, error?}` (the `error`
field is only written in the error branch). -/
structure SState where
  status : Status
  since : Nat
  error : Option String
deriving DecidableEq, Repr

/-- The outage record built by `findCurrentOutages`:
`{service, startTime, duration, error, isOngoing}`. -/
structure Outage where
  service : String
  startTime : Nat
  duration : Int
  error : String
  isOngoing : Bool
deriving DecidableEq, Repr

/-! ## Insertion-ordered maps (JS `Map` / plain object with string keys) -/

/-- `Map.get` / object indexing: the value at a key, if present. -/
def mapGet {α : Type} (m : List (String × α)) (k : String) : Option α :=
  (m.find? (fun p => p.1 = k)).map (·.2)

/-- `Map.has` / the `in` operator. -/
def mapHas {α : Type} (m : List (String × α)) (k : String) : Bool :=
  m.any (fun p => p.1 = k)

/-- `Map.set` / object assignment: update in place when the key exists
(keeping its position), otherwise append at the end — JS insertion-order
semantics. -/
def mapSet {α : Type} (m : List (String × α)) (k : String) (v : α) :
    List (String × α) :=
  if m.any (fun p => p.1 = k) then
    m.map (fun p => if p.1 = k then (k, v) else p)
  else
    m ++ [(k, v)]

/-- `Map.delete` / the `delete` operator. -/
def mapDelete {α : Type} (m : List (String × α)) (k : String) :
    List (String × α) :=
  m.filter (fun p => ¬ p.1 = k)

/-! ## `findCurrentOutages` (src/scripts/slack-notification.ts, lines 89–169) -/

/-- `service.error || "Unknown error"`: JavaScript `||` falls through to the
placeholder on `undefined` and on the empty string (both falsy). -/
def orUnknown (e : Option String) : String :=
  match e with
  | none => "Unknown error"
  | some s => if s = "" then "Unknown error" else s

/-- The body of the inner loop of `findCurrentOutages` for a single
`ServiceCheck` of the observation with timestamp `t`, acting on the pair
`(serviceStatus, outageMap)`. -/
def innerStep (acc : List (String × SState) × List (String × Outage))
    (t : Nat) (sc : ServiceCheck) :
    List (String × SState) × List (String × Outage) :=
  let ss := acc.1
  let om := acc.2
  let name := sc.service
  match sc.status with
  | Status.error =>
      if (match mapGet ss name with
          | none => true
          | some st => st.status = Status.ok) then
        (mapSet ss name ⟨Status.error, t, some (orUnknown sc.error)⟩,
         mapSet om name ⟨name, t, 0, orUnknown sc.error, true⟩)
      else acc
  | Status.ok =>
      if (match mapGet ss name with
          | none => false
          | some st => st.status = Status.error) then
        (mapSet ss name ⟨Status.ok, t, none⟩, mapDelete om name)
      else acc

/-- The comparison used by `statusChecks.sort((a, b) => ta - tb)`:
timestamp ascending. -/
def tsLe (a b : StatusCheck) : Prop :=
  a.timestamp ≤ b.timestamp

instance : DecidableRel tsLe := fun a b => Nat.decLe a.timestamp b.timestamp

instance : IsTotal StatusCheck tsLe := ⟨fun a b => Nat.le_total a.timestamp b.timestamp⟩

instance : IsTrans StatusCheck tsLe := ⟨fun _ _ _ => Nat.le_trans⟩

/-- `statusChecks.sort((a, b) => ta - tb)`: JavaScript `Array.prototype.sort`
is stable; modelled with the stable `List.insertionSort` by timestamp
ascending. -/
def sortChecks (l : List StatusCheck) : List StatusCheck :=
  List.insertionSort tsLe l

/-- The double loop of `findCurrentOutages` over the (already sorted)
observations: for each observation, for each of its service checks, run
`innerStep`.  Both tracking maps start empty. -/
def replay (checks : List StatusCheck) :
    List (String × SState) × List (String × Outage) :=
  checks.foldl
    (fun acc c => c.checks.foldl (fun a sc => innerStep a c.timestamp sc) acc)
    ([], [])

/-- The final pass of `findCurrentOutages` (lines 156–166):
`outage.duration = now.getTime() - outage.startTime.getTime()`. -/
def setDuration (now : Nat) (o : Outage) : Outage :=
  { o with duration := (now : Int) - (o.startTime : Int) }

/-- `findCurrentOutages`: sort the observations chronologically, replay
them, then set every surviving outage's `duration` to
`now.getTime() - startTime.getTime()`. -/
def findCurrentOutages (statusChecks : List StatusCheck) (now : Nat) :
    List (String × Outage) :=
  let sorted := sortChecks statusChecks
  let om := (replay sorted).2
  om.map (fun p => (p.1, setDuration now p.2))

/-! ## `formatDuration` (lines 64–73) -/

/-- `minutes.toString().padStart(2, "0")`. -/
def padStart2 (s : String) : String :=
  if 2 ≤ s.length then s
  else String.mk (List.replicate (2 - s.length) '0') ++ s

/-- `formatDuration`: `Math.round(milliseconds / 1000 / 60)` is, for a
non-negative argument, `⌊ms / 60000 + 1/2⌋ = (ms + 30000) / 60000` in
integer arithmetic. -/
def formatDuration (milliseconds : Nat) : String :=
  let totalMinutes := (milliseconds + 30000) / 60000
  if totalMinutes ≥ 60 then
    let hours := totalMinutes / 60
    let minutes := totalMinutes % 60
    toString hours ++ "hr " ++ padStart2 (toString minutes) ++ "min"
  else
    toString totalMinutes ++ "min"

/-! ## `sendSlackNotification` (lines 174–304)

The I/O collaborators are abstracted: the ledger read from
`reported-outages.json` and the observation list are parameters; the
single outbound dispatcher call is a parameter describing its outcome
(`ky.post` either yields a response with a status, or throws — on network
failure or timeout); `Date.now()` at stamping time is a parameter.  The
outcome records what the run persisted, whether it called the dispatcher,
which outages it put into the message, and the process exit code. -/

/-- `NOTIFICATION_THRESHOLD = 20 * 60 * 1000` (20 minutes in ms). -/
def NOTIFICATION_THRESHOLD : Int := 20 * 60 * 1000

/-- Outcome of the `ky.post` call: an HTTP response with a status code, or
a thrown error (network failure, timeout, or a client that throws on
non-2xx statuses). -/
inductive DispatchResult where
  | resp : Nat → DispatchResult
  | thrown : DispatchResult
deriving DecidableEq, Repr

/-- What a run of `sendSlackNotification` did: the ledger written to
`reported-outages.json` (`none` when the run exited without reaching a
`saveReportedOutages` call), whether the dispatcher was invoked, the
outages included in the Slack message, and the process exit code. -/
structure RunOutcome where
  savedLedger : Option (List (String × Nat))
  dispatched : Bool
  toAlert : List Outage
  exitCode : Nat
deriving DecidableEq, Repr

/-- Lines 190–198: copy the ledger and delete every service that is not a
key of `currentOutages`. -/
def cleanLedger (reported : List (String × Nat))
    (currentOutages : List (String × Outage)) : List (String × Nat) :=
  reported.filter (fun p => mapHas currentOutages p.1)

/-- Lines 201–203: `Array.from(currentOutages.values())` filtered by
`outage.duration >= NOTIFICATION_THRESHOLD`. -/
def longOutagesOf (currentOutages : List (String × Outage)) : List Outage :=
  (currentOutages.map (·.2)).filter (fun o => NOTIFICATION_THRESHOLD ≤ o.duration)

/-- JavaScript truthiness of `updatedReportedOutages[outage.service]`:
`undefined` and `0` are falsy. -/
def truthyNat (v : Option Nat) : Bool :=
  match v with
  | none => false
  | some n => n ≠ 0

/-- Lines 217–219: keep the outages whose service has no truthy entry in
the (cleaned) ledger. -/
def newOutagesOf (cleaned : List (String × Nat)) (long : List Outage) :
    List Outage :=
  long.filter (fun o => ¬ truthyNat (mapGet cleaned o.service))

/-- The `toAlert` list a run computes: threshold filter then dedupe filter
against the cleaned ledger. -/
def computeToAlert (reported : List (String × Nat))
    (currentOutages : List (String × Outage)) : List Outage :=
  newOutagesOf (cleanLedger reported currentOutages) (longOutagesOf currentOutages)

/-- Lines 280–282: stamp every alerted service into the ledger with
`Date.now()`. -/
def stampAll (l : List (String × Nat)) (outs : List Outage) (stamp : Nat) :
    List (String × Nat) :=
  outs.foldl (fun acc o => mapSet acc o.service stamp) l

/-- The control flow of `sendSlackNotification` (lines 174–304), with the
webhook URL configured (the script exits at line 29 before defining the
function otherwise).  Note that the `catch` block (line 295) is entered
when `ky.post` throws, skipping the `saveReportedOutages` call at line
294 and exiting with status 1. -/
def sendSlackNotification (reported : List (String × Nat))
    (statusChecks : List StatusCheck) (now : Nat)
    (dispatch : DispatchResult) (stamp : Nat) : RunOutcome :=
  let currentOutages := findCurrentOutages statusChecks now
  let updatedReportedOutages := cleanLedger reported currentOutages
  let longOutages := longOutagesOf currentOutages
  if longOutages.isEmpty then
    ⟨some updatedReportedOutages, false, [], 0⟩
  else
    let newOutages := newOutagesOf updatedReportedOutages longOutages
    if newOutages.isEmpty then
      ⟨some updatedReportedOutages, false, [], 0⟩
    else
      match dispatch with
      | DispatchResult.resp status =>
          if 200 ≤ status ∧ status < 300 then
            ⟨some (stampAll updatedReportedOutages newOutages stamp),
             true, newOutages, 0⟩
          else
            ⟨some updatedReportedOutages, true, newOutages, 0⟩
      | DispatchResult.thrown =>
          ⟨none, true, newOutages, 1⟩

/-! ## Specification-side views used by the proofs -/

/-- The action of one check on one service's pair of entries: the literal
per-service content of `innerStep`. -/
def pstep (t : Nat) (sc : ServiceCheck) (st : Option SState × Option Outage) :
    Option SState × Option Outage :=
  match sc.status with
  | Status.error =>
      if (match st.1 with
          | none => true
          | some x => x.status = Status.ok) then
        (some ⟨Status.error, t, some (orUnknown sc.error)⟩,
         some ⟨sc.service, t, 0, orUnknown sc.error, true⟩)
      else st
  | Status.ok =>
      if (match st.1 with
          | none => false
          | some x => x.status = Status.error) then
        (some ⟨Status.ok, t, none⟩, none)
      else st

/-- Both tracking maps, viewed at one service's key. -/
def projAt (s : String)
    (a : List (String × SState) × List (String × Outage)) :
    Option SState × Option Outage :=
  (mapGet a.1 s, mapGet a.2 s)

/-- The events of a replay, flattened to (timestamp, check) pairs in
processing order. -/
def flatEvents (checks : List StatusCheck) : List (Nat × ServiceCheck) :=
  checks.flatMap (fun c => c.checks.map (fun sc => (c.timestamp, sc)))

/-- One flattened step. -/
def evStep (a : List (String × SState) × List (String × Outage))
    (e : Nat × ServiceCheck) :
    List (String × SState) × List (String × Outage) :=
  innerStep a e.1 e.2

/-- The chronological per-service event stream: the flattened events of
the sorted observations, restricted to one service. -/
def serviceEvents (checks : List StatusCheck) (s : String) :
    List (Nat × ServiceCheck) :=
  (flatEvents (sortChecks checks)).filter (fun e => e.2.service = s)

/-- The per-service replay of a service's own events. -/
def foldPS (evs : List (Nat × ServiceCheck)) : Option SState × Option Outage :=
  evs.foldl (fun st e => pstep e.1 e.2 st) (none, none)

/-- Whether a recorded service state is an error state. -/
def stErr (st : Option SState) : Bool :=
  match st with
  | none => false
  | some x => x.status = Status.error

/-- The outage record created at the onset event `e` (before the final
duration pass). -/
def mkOut (e : Nat × ServiceCheck) : Outage :=
  ⟨e.2.service, e.1, 0, orUnknown e.2.error, true⟩

/-- The maximal suffix of an event list consisting of error observations. -/
def trailingErrorRun (evs : List (Nat × ServiceCheck)) :
    List (Nat × ServiceCheck) :=
  (evs.reverse.takeWhile (fun e => e.2.status = Status.error)).reverse

/-! ## Sanity checks

The scenario from §8 of the design document: observations
`[t=0 ok, t=5min error "timeout", t=30min error "timeout"]`, now = 31min
→ one outage for svcA with start 5min and duration 26min. -/

example :
    findCurrentOutages
      [⟨0, [⟨"svcA", Status.ok, none⟩]⟩,
       ⟨300000, [⟨"svcA", Status.error, some "timeout"⟩]⟩,
       ⟨1800000, [⟨"svcA", Status.error, some "timeout"⟩]⟩]
      1860000
    = [("svcA", ⟨"svcA", 300000, 1560000, "timeout", true⟩)] := by decide

example :
    findCurrentOutages
      [⟨0, [⟨"svcA", Status.error, some "x"⟩]⟩,
       ⟨10, [⟨"svcA", Status.ok, none⟩]⟩]
      20 = [] := by decide

example : formatDuration 125000 = "2min" := by decide

example : formatDuration 3660000 = "1hr 01min" := by decide

/-! ## Lemmas about the insertion-ordered maps -/

theorem mapGet_nil {α : Type} (s : String) :
    mapGet ([] : List (String × α)) s = none := rfl

theorem mapGet_cons {α : Type} (p : String × α) (t : List (String × α))
    (s : String) :
    mapGet (p :: t) s = if p.1 = s then some p.2 else mapGet t s := by
  by_cases hp : p.1 = s
  · simp [mapGet, List.find?_cons, hp]
  · simp [mapGet, List.find?_cons, hp]

theorem mapSet_cons {α : Type} (p : String × α) (t : List (String × α))
    (k : String) (v : α) :
    mapSet (p :: t) k v =
      if p.1 = k then
        (k, v) :: t.map (fun q => if q.1 = k then (k, v) else q)
      else p :: mapSet t k v := by
  by_cases hp : p.1 = k
  · simp [mapSet, hp]
  · simp only [mapSet, List.any_cons, hp, decide_False, Bool.false_or, if_neg hp]
    by_cases ht : t.any (fun q => q.1 = k)
    · simp [ht, hp]
    · simp [ht, hp]

theorem mapGet_map_replace {α : Type} (t : List (String × α)) (k s : String)
    (v : α) (h : ¬ s = k) :
    mapGet (t.map (fun q => if q.1 = k then (k, v) else q)) s = mapGet t s := by
  induction t with
  | nil => rfl
  | cons q t ih =>
    rw [List.map_cons]
    by_cases hq : q.1 = k
    · have hks : ¬ (k, v).1 = s := fun hc => h hc.symm
      have hqs : ¬ q.1 = s := by rw [hq]; exact fun hc => h hc.symm
      rw [if_pos hq, mapGet_cons, mapGet_cons, if_neg hks, if_neg hqs]
      exact ih
    · rw [if_neg hq, mapGet_cons, mapGet_cons]
      by_cases hqs : q.1 = s
      · rw [if_pos hqs, if_pos hqs]
      · rw [if_neg hqs, if_neg hqs]
        exact ih

theorem mapGet_mapSet {α : Type} (m : List (String × α)) (k s : String)
    (v : α) :
    mapGet (mapSet m k v) s = if s = k then some v else mapGet m s := by
  induction m with
  | nil =>
    show mapGet ([] ++ [(k, v)]) s = _
    rw [List.nil_append, mapGet_cons]
    by_cases hs : s = k
    · rw [if_pos (show (k, v).1 = s from hs.symm), if_pos hs]
    · rw [if_neg (show ¬ (k, v).1 = s from fun hc => hs hc.symm), if_neg hs]
  | cons p t ih =>
    rw [mapSet_cons]
    by_cases hp : p.1 = k
    · rw [if_pos hp, mapGet_cons, mapGet_cons]
      by_cases hs : s = k
      · rw [if_pos (show (k, v).1 = s from hs.symm), if_pos hs]
      · have hps : ¬ p.1 = s := by rw [hp]; exact fun hc => hs hc.symm
        rw [if_neg (show ¬ (k, v).1 = s from fun hc => hs hc.symm), if_neg hs,
          if_neg hps]
        exact mapGet_map_replace t k s v hs
    · rw [if_neg hp, mapGet_cons, mapGet_cons]
      by_cases hps : p.1 = s
      · have hs : ¬ s = k := fun hc => hp (hps.trans hc)
        rw [if_pos hps, if_neg hs, if_pos hps]
      · rw [if_neg hps, if_neg hps, ih]

theorem mapDelete_cons {α : Type} (p : String × α) (t : List (String × α))
    (k : String) :
    mapDelete (p :: t) k =
      if p.1 = k then mapDelete t k else p :: mapDelete t k := by
  by_cases hp : p.1 = k <;> simp [mapDelete, List.filter_cons, hp]

theorem mapGet_mapDelete {α : Type} (m : List (String × α)) (k s : String) :
    mapGet (mapDelete m k) s = if s = k then none else mapGet m s := by
  induction m with
  | nil => by_cases hs : s = k <;> simp [mapDelete, mapGet, hs]
  | cons p t ih =>
    rw [mapDelete_cons]
    by_cases hp : p.1 = k
    · rw [if_pos hp, ih, mapGet_cons]
      by_cases hs : s = k
      · rw [if_pos hs, if_pos hs]
      · have hps : ¬ p.1 = s := by rw [hp]; exact fun hc => hs hc.symm
        rw [if_neg hs, if_neg hs, if_neg hps]
    · rw [if_neg hp, mapGet_cons, mapGet_cons]
      by_cases hps : p.1 = s
      · have hs : ¬ s = k := fun hc => hp (hps.trans hc)
        rw [if_pos hps, if_neg hs, if_pos hps]
      · rw [if_neg hps, if_neg hps, ih]

theorem mapHas_eq_isSome {α : Type} (m : List (String × α)) (k : String) :
    mapHas m k = (mapGet m k).isSome := by
  induction m with
  | nil => rfl
  | cons p t ih =>
    rw [mapGet_cons]
    by_cases hp : p.1 = k
    · simp [mapHas, List.any_cons, hp]
    · simp only [mapHas, List.any_cons, hp, decide_False, Bool.false_or, if_neg hp]
      exact ih

theorem mapGet_mapVal {α β : Type} (m : List (String × α)) (f : α → β)
    (s : String) :
    mapGet (m.map (fun p => (p.1, f p.2))) s = (mapGet m s).map f := by
  induction m with
  | nil => rfl
  | cons p t ih =>
    rw [List.map_cons, mapGet_cons, mapGet_cons]
    by_cases hp : p.1 = s
    · simp [hp]
    · simp only [hp, if_neg hp]
      exact ih

/-! ## Per-service decomposition of the replay loop

The two tracking maps are only ever read and written at the key
`sc.service` of the check being processed, so the replay decomposes into
independent per-service state machines. -/

theorem foldl_flatEvents (checks : List StatusCheck)
    (init : List (String × SState) × List (String × Outage)) :
    checks.foldl
      (fun acc c => c.checks.foldl (fun a sc => innerStep a c.timestamp sc) acc)
      init
      = (flatEvents checks).foldl evStep init := by
  induction checks generalizing init with
  | nil => rfl
  | cons c t ih =>
    rw [List.foldl_cons, ih]
    simp only [flatEvents, List.flatMap_cons, List.foldl_append, List.foldl_map]
    rfl

theorem replay_eq_flat (checks : List StatusCheck) :
    replay checks = (flatEvents checks).foldl evStep ([], []) :=
  foldl_flatEvents checks ([], [])

theorem projAt_innerStep (s : String) (t : Nat) (sc : ServiceCheck)
    (a : List (String × SState) × List (String × Outage)) :
    projAt s (innerStep a t sc)
      = if sc.service = s then pstep t sc (projAt s a) else projAt s a := by
  obtain ⟨ss, om⟩ := a
  by_cases hs : sc.service = s
  · subst hs
    rw [if_pos rfl]
    cases hst : sc.status with
    | error =>
      simp only [innerStep, pstep, hst, projAt]
      by_cases hc : (match mapGet ss sc.service with
          | none => true
          | some x => decide (x.status = Status.ok)) = true
      · rw [if_pos hc, if_pos hc]
        rw [mapGet_mapSet, mapGet_mapSet, if_pos rfl, if_pos rfl]
      · rw [if_neg hc, if_neg hc]
    | ok =>
      simp only [innerStep, pstep, hst, projAt]
      by_cases hc : (match mapGet ss sc.service with
          | none => false
          | some x => decide (x.status = Status.error)) = true
      · rw [if_pos hc, if_pos hc]
        rw [mapGet_mapSet, mapGet_mapDelete, if_pos rfl, if_pos rfl]
      · rw [if_neg hc, if_neg hc]
  · rw [if_neg hs]
    have hsk : ¬ s = sc.service := fun hc => hs hc.symm
    cases hst : sc.status with
    | error =>
      simp only [innerStep, hst, projAt]
      by_cases hc : (match mapGet ss sc.service with
          | none => true
          | some x => decide (x.status = Status.ok)) = true
      · rw [if_pos hc]
        rw [mapGet_mapSet, mapGet_mapSet, if_neg hsk, if_neg hsk]
      · rw [if_neg hc]
    | ok =>
      simp only [innerStep, hst, projAt]
      by_cases hc : (match mapGet ss sc.service with
          | none => false
          | some x => decide (x.status = Status.error)) = true
      · rw [if_pos hc]
        rw [mapGet_mapSet, mapGet_mapDelete, if_neg hsk, if_neg hsk]
      · rw [if_neg hc]

theorem projAt_foldl (s : String) (evs : List (Nat × ServiceCheck))
    (a : List (String × SState) × List (String × Outage)) :
    projAt s (evs.foldl evStep a)
      = (evs.filter (fun e => e.2.service = s)).foldl
          (fun st e => pstep e.1 e.2 st) (projAt s a) := by
  induction evs generalizing a with
  | nil => rfl
  | cons e t ih =>
    rw [List.foldl_cons]
    by_cases he : e.2.service = s
    · have hfil : List.filter (fun e : Nat × ServiceCheck =>
            decide (e.2.service = s)) (e :: t)
          = e :: List.filter (fun e : Nat × ServiceCheck =>
            decide (e.2.service = s)) t := by
        simp [List.filter_cons, he]
      rw [hfil, List.foldl_cons, ih]
      simp only [evStep]
      rw [projAt_innerStep, if_pos he]
    · have hfil : List.filter (fun e : Nat × ServiceCheck =>
            decide (e.2.service = s)) (e :: t)
          = List.filter (fun e : Nat × ServiceCheck =>
            decide (e.2.service = s)) t := by
        simp [List.filter_cons, he]
      rw [hfil, ih]
      simp only [evStep]
      rw [projAt_innerStep, if_neg he]

theorem projAt_replay (checks : List StatusCheck) (s : String) :
    projAt s (replay (sortChecks checks)) = foldPS (serviceEvents checks s) := by
  rw [replay_eq_flat, projAt_foldl, foldPS, serviceEvents]
  rfl

/-! ## The trailing error run

The outage a service ends up with is determined by its trailing maximal
run of error observations: the outage entry survives iff that run is
non-empty, and its `startTime` and `error` come from the run's first
observation. -/

theorem foldPS_append (evs : List (Nat × ServiceCheck))
    (e : Nat × ServiceCheck) :
    foldPS (evs ++ [e]) = pstep e.1 e.2 (foldPS evs) := by
  rw [foldPS, List.foldl_append]
  rfl

theorem trailing_append_error (evs : List (Nat × ServiceCheck))
    (e : Nat × ServiceCheck) (he : e.2.status = Status.error) :
    trailingErrorRun (evs ++ [e]) = trailingErrorRun evs ++ [e] := by
  rw [trailingErrorRun, trailingErrorRun, List.reverse_append]
  simp [List.takeWhile_cons, he]

theorem trailing_append_ok (evs : List (Nat × ServiceCheck))
    (e : Nat × ServiceCheck) (he : e.2.status = Status.ok) :
    trailingErrorRun (evs ++ [e]) = [] := by
  rw [trailingErrorRun, List.reverse_append]
  simp [List.takeWhile_cons, he]

/-- The per-service replay is determined by the trailing error run: the
service-state entry is an error state iff the run is non-empty, and the
outage entry is the one created at the run's first event. -/
theorem foldPS_spec (evs : List (Nat × ServiceCheck)) :
    stErr (foldPS evs).1 = !(trailingErrorRun evs).isEmpty
    ∧ (foldPS evs).2 = (trailingErrorRun evs).head?.map mkOut := by
  induction evs using List.reverseRecOn with
  | nil => exact ⟨rfl, rfl⟩
  | append_singleton evs e ih =>
    obtain ⟨ih1, ih2⟩ := ih
    rw [foldPS_append]
    cases hst : e.2.status with
    | error =>
      rw [trailing_append_error evs e hst]
      simp only [pstep, hst]
      cases hf1 : (foldPS evs).1 with
      | none =>
        have htr : trailingErrorRun evs = [] := by
          rw [hf1] at ih1
          have : (trailingErrorRun evs).isEmpty = true := by
            cases hh : (trailingErrorRun evs).isEmpty
            · rw [hh] at ih1
              exact absurd ih1 (by simp [stErr])
            · rfl
          exact List.isEmpty_iff.mp this
        rw [htr]
        simp [stErr, mkOut]
      | some x =>
        cases hxs : x.status with
        | ok =>
          have htr : trailingErrorRun evs = [] := by
            rw [hf1] at ih1
            have : (trailingErrorRun evs).isEmpty = true := by
              cases hh : (trailingErrorRun evs).isEmpty
              · rw [hh] at ih1
                exact absurd ih1 (by simp [stErr, hxs])
              · rfl
            exact List.isEmpty_iff.mp this
          rw [htr]
          simp [stErr, mkOut, hxs]
        | error =>
          have htr : ¬ trailingErrorRun evs = [] := by
            rw [hf1] at ih1
            intro hc
            rw [hc] at ih1
            simp [stErr, hxs] at ih1
          simp only [hxs]
          rw [if_neg (by simp)]
          constructor
          · rw [hf1]
            simp [stErr, hxs]
          · obtain ⟨y, ys, hy⟩ := List.exists_cons_of_ne_nil htr
            rw [hy] at ih2 ⊢
            simpa using ih2
    | ok =>
      rw [trailing_append_ok evs e hst]
      simp only [pstep, hst]
      cases hf1 : (foldPS evs).1 with
      | none =>
        rw [hf1] at ih1
        rw [if_neg (by simp)]
        constructor
        · rw [hf1]
          simp [stErr]
        · have : (trailingErrorRun evs).isEmpty = true := by
            cases hh : (trailingErrorRun evs).isEmpty
            · rw [hh] at ih1
              exact absurd ih1 (by simp [stErr])
            · rfl
          rw [List.isEmpty_iff.mp this] at ih2
          simpa using ih2
      | some x =>
        cases hxs : x.status with
        | ok =>
          rw [hf1] at ih1
          simp only [hxs]
          rw [if_neg (by simp)]
          constructor
          · rw [hf1]
            simp [stErr, hxs]
          · have : (trailingErrorRun evs).isEmpty = true := by
              cases hh : (trailingErrorRun evs).isEmpty
              · rw [hh] at ih1
                exact absurd ih1 (by simp [stErr, hxs])
              · rfl
            rw [List.isEmpty_iff.mp this] at ih2
            simpa using ih2
        | error =>
          simp only [hxs]
          rw [if_pos (by simp)]
          simp [stErr]

/-! ## Characterization of `findCurrentOutages` -/

/-- The outage mapping, at any service key, is the trailing error run's
first event, with the final duration pass applied. -/
theorem outage_char (checks : List StatusCheck) (now : Nat) (s : String) :
    mapGet (findCurrentOutages checks now) s
      = ((trailingErrorRun (serviceEvents checks s)).head?.map mkOut).map
          (setDuration now) := by
  have h1 : mapGet (findCurrentOutages checks now) s
      = (mapGet (replay (sortChecks checks)).2 s).map (setDuration now) := by
    simp only [findCurrentOutages]
    exact mapGet_mapVal (replay (sortChecks checks)).2 (setDuration now) s
  have h2 : mapGet (replay (sortChecks checks)).2 s
      = (foldPS (serviceEvents checks s)).2 :=
    congrArg Prod.snd (projAt_replay checks s)
  rw [h1, h2, (foldPS_spec (serviceEvents checks s)).2]

/-- A service has an entry in the outage mapping iff its trailing error
run is non-empty. -/
theorem mapHas_findCurrentOutages (checks : List StatusCheck) (now : Nat)
    (s : String) :
    mapHas (findCurrentOutages checks now) s
      = !(trailingErrorRun (serviceEvents checks s)).isEmpty := by
  rw [mapHas_eq_isSome, outage_char]
  cases htr : trailingErrorRun (serviceEvents checks s) with
  | nil => rfl
  | cons y ys => rfl

/-- The trailing error run is non-empty exactly when the service's last
chronological observation has status `error`. -/
theorem trailing_nonempty_iff (evs : List (Nat × ServiceCheck)) :
    (trailingErrorRun evs).isEmpty = false ↔
      evs.getLast?.map (fun e => e.2.status) = some Status.error := by
  rw [trailingErrorRun]
  cases hrev : evs.reverse with
  | nil =>
    have hl : evs.getLast? = none := by
      rw [← List.head?_reverse, hrev]
      rfl
    simp [hl]
  | cons y ys =>
    have hl : evs.getLast? = some y := by
      rw [← List.head?_reverse, hrev]
      rfl
    rw [List.takeWhile_cons]
    by_cases hy : y.2.status = Status.error
    · simp [hy, hl]
    · simp [hy, hl]

/-- Every event list splits into a prefix and its trailing error run. -/
theorem trailing_decomp (evs : List (Nat × ServiceCheck)) :
    evs = (evs.reverse.dropWhile
        (fun e => e.2.status = Status.error)).reverse
      ++ trailingErrorRun evs := by
  rw [trailingErrorRun]
  conv_lhs => rw [← List.reverse_reverse evs,
    ← List.takeWhile_append_dropWhile
      (fun e : Nat × ServiceCheck => decide (e.2.status = Status.error))
      evs.reverse]
  rw [List.reverse_append]

/-- All events of the trailing error run are error observations. -/
theorem trailing_all_error (evs : List (Nat × ServiceCheck)) :
    ∀ e ∈ trailingErrorRun evs, e.2.status = Status.error := by
  intro e he
  rw [trailingErrorRun, List.mem_reverse] at he
  have hp := List.mem_takeWhile_imp he
  simpa using hp

/-- The observation right before the trailing error run, when it exists,
has status `ok` (the run is maximal). -/
theorem trailing_pre_ok (evs : List (Nat × ServiceCheck)) :
    ∀ e, ((evs.reverse.dropWhile
        (fun e => e.2.status = Status.error)).reverse).getLast? = some e →
      e.2.status = Status.ok := by
  intro e hlast
  rw [List.getLast?_reverse] at hlast
  have hd := List.head?_dropWhile_not
    (fun e : Nat × ServiceCheck => decide (e.2.status = Status.error))
    evs.reverse
  rw [hlast] at hd
  have : ¬ e.2.status = Status.error := by simpa using hd
  cases hes : e.2.status with
  | ok => rfl
  | error => exact absurd hes this

/-- Every event of a service's event stream carries that service's name
and stems from an observation of the input list. -/
theorem serviceEvents_sound (checks : List StatusCheck) (s : String) :
    ∀ e ∈ serviceEvents checks s,
      e.2.service = s ∧ ∃ c ∈ checks, e.1 = c.timestamp ∧ e.2 ∈ c.checks := by
  intro e he
  rw [serviceEvents] at he
  have hmem := List.mem_filter.mp he
  refine ⟨by simpa using hmem.2, ?_⟩
  have hflat := hmem.1
  rw [flatEvents, List.mem_flatMap] at hflat
  obtain ⟨c, hc, hec⟩ := hflat
  rw [List.mem_map] at hec
  obtain ⟨sc, hsc, hesc⟩ := hec
  refine ⟨c, ?_, ?_, ?_⟩
  · have := (List.perm_insertionSort tsLe checks).mem_iff.mp
      (show c ∈ sortChecks checks from hc)
    exact this
  · rw [← hesc]
  · rw [← hesc]
    exact hsc

theorem mem_serviceEvents_of_mem_trailing (checks : List StatusCheck)
    (s : String) (e : Nat × ServiceCheck)
    (he : e ∈ trailingErrorRun (serviceEvents checks s)) :
    e ∈ serviceEvents checks s := by
  have h := List.mem_append_right
    ((serviceEvents checks s).reverse.dropWhile
      (fun e => e.2.status = Status.error)).reverse he
  rw [← trailing_decomp] at h
  exact h

/-! ## Claims about the reconstruction -/

/-- C1: the reconstruction contains an entry for a service iff that
service appears in some observation and its chronologically latest
recorded status is `error`; for such a service, the entry's `startTime`
is the timestamp of the observation that first transitioned it from `ok`
(or unseen) to `error` — the first event of the maximal trailing run of
error observations — and intervening error observations of that run do
not reset it. -/
theorem claim_C1 (checks : List StatusCheck) (now : Nat) (s : String) :
    (mapHas (findCurrentOutages checks now) s = true ↔
        (serviceEvents checks s).getLast?.map (fun e => e.2.status)
          = some Status.error)
    ∧ ∀ o, mapGet (findCurrentOutages checks now) s = some o →
        o.service = s ∧
        ∃ pre run, serviceEvents checks s = pre ++ run ∧
          (∀ e ∈ run, e.2.status = Status.error) ∧
          (∀ e, pre.getLast? = some e → e.2.status = Status.ok) ∧
          ∃ e0 rest, run = e0 :: rest ∧ o.startTime = e0.1 := by
  constructor
  · rw [mapHas_findCurrentOutages]
    constructor
    · intro h
      refine (trailing_nonempty_iff (serviceEvents checks s)).mp ?_
      revert h
      cases (trailingErrorRun (serviceEvents checks s)).isEmpty <;> simp
    · intro h
      rw [(trailing_nonempty_iff (serviceEvents checks s)).mpr h]
      rfl
  · intro o ho
    rw [outage_char] at ho
    rcases htr : trailingErrorRun (serviceEvents checks s) with _ | ⟨e0, rest⟩
    · rw [htr] at ho
      simp at ho
    · rw [htr] at ho
      simp only [List.head?_cons, Option.map_some'] at ho
      obtain rfl : setDuration now (mkOut e0) = o := Option.some.inj ho
      have he0 : e0 ∈ serviceEvents checks s :=
        mem_serviceEvents_of_mem_trailing checks s e0
          (by rw [htr]; exact List.mem_cons_self e0 rest)
      refine ⟨(serviceEvents_sound checks s e0 he0).1, _, _,
        trailing_decomp (serviceEvents checks s), ?_, trailing_pre_ok _, ?_⟩
      · exact trailing_all_error _
      · exact ⟨e0, rest, htr, rfl⟩

theorem claim_C1_witness :
    mapHas (findCurrentOutages
        [⟨0, [⟨"a", Status.error, some "x"⟩]⟩] 5) "a" = true ↔
      (serviceEvents [⟨0, [⟨"a", Status.error, some "x"⟩]⟩] "a").getLast?.map
        (fun e => e.2.status) = some Status.error :=
  (claim_C1 [⟨0, [⟨"a", Status.error, some "x"⟩]⟩] 5 "a").1

/-- C3 counterexample: an error observation time-stamped after `now`
survives with a strictly negative duration, so the duration is not
non-negative for every input. -/
theorem claim_C3_counterexample :
    mapGet (findCurrentOutages
        [⟨100, [⟨"a", Status.error, some "boom"⟩]⟩] 0) "a"
      = some ⟨"a", 100, -100, "boom", true⟩
    ∧ ((-100 : Int) < 0) := by
  constructor
  · decide
  · decide

/-- C3 (amended): every outage of the reconstruction has
`duration = now - startTime`; the duration is non-negative whenever every
observation's timestamp is at most `now` (an observation time-stamped
after `now` yields a negative duration). -/
theorem claim_C3_amended (checks : List StatusCheck) (now : Nat) (s : String)
    (o : Outage) (ho : mapGet (findCurrentOutages checks now) s = some o) :
    o.duration = (now : Int) - (o.startTime : Int)
    ∧ ((∀ c ∈ checks, c.timestamp ≤ now) → 0 ≤ o.duration) := by
  rw [outage_char] at ho
  rcases htr : trailingErrorRun (serviceEvents checks s) with _ | ⟨e0, rest⟩
  · rw [htr] at ho
    simp at ho
  · rw [htr] at ho
    simp only [List.head?_cons, Option.map_some'] at ho
    obtain rfl : setDuration now (mkOut e0) = o := Option.some.inj ho
    refine ⟨rfl, ?_⟩
    intro hall
    have he0 : e0 ∈ serviceEvents checks s :=
      mem_serviceEvents_of_mem_trailing checks s e0
        (by rw [htr]; exact List.mem_cons_self e0 rest)
    obtain ⟨_, c, hc, hts, _⟩ := serviceEvents_sound checks s e0 he0
    have hle := hall c hc
    show (0 : Int) ≤ (now : Int) - ((mkOut e0).startTime : Int)
    have : (mkOut e0).startTime = c.timestamp := hts ▸ rfl
    rw [this]
    omega

theorem claim_C3_witness :
    ((⟨"a", 2, 3, "Unknown error", true⟩ : Outage).duration
        = ((5 : Nat) : Int) - (((⟨"a", 2, 3, "Unknown error", true⟩ :
            Outage).startTime : Nat) : Int))
    ∧ ((∀ c ∈ [(⟨2, [⟨"a", Status.error, none⟩]⟩ : StatusCheck)],
          c.timestamp ≤ 5) →
        0 ≤ (⟨"a", 2, 3, "Unknown error", true⟩ : Outage).duration) :=
  claim_C3_amended [⟨2, [⟨"a", Status.error, none⟩]⟩] 5 "a"
    ⟨"a", 2, 3, "Unknown error", true⟩ (by decide)

/-- C4: a reconstructed outage's message is the message of the first
error observation of its contiguous failure run (the maximal trailing run
of error observations), normalized to "Unknown error" when absent or
empty, regardless of the messages carried by later observations of the
run. -/
theorem claim_C4 (checks : List StatusCheck) (now : Nat) (s : String)
    (o : Outage) (ho : mapGet (findCurrentOutages checks now) s = some o) :
    (∃ pre e0 rest, serviceEvents checks s = pre ++ (e0 :: rest) ∧
        (∀ e ∈ e0 :: rest, e.2.status = Status.error) ∧
        (∀ e, pre.getLast? = some e → e.2.status = Status.ok) ∧
        o.error = orUnknown e0.2.error)
    ∧ orUnknown none = "Unknown error"
    ∧ orUnknown (some "") = "Unknown error" := by
  refine ⟨?_, rfl, rfl⟩
  rw [outage_char] at ho
  rcases htr : trailingErrorRun (serviceEvents checks s) with _ | ⟨e0, rest⟩
  · rw [htr] at ho
    simp at ho
  · rw [htr] at ho
    simp only [List.head?_cons, Option.map_some'] at ho
    obtain rfl : setDuration now (mkOut e0) = o := Option.some.inj ho
    refine ⟨((serviceEvents checks s).reverse.dropWhile
        (fun e => e.2.status = Status.error)).reverse, e0, rest, ?_, ?_,
      trailing_pre_ok (serviceEvents checks s), rfl⟩
    · rw [← htr]
      exact trailing_decomp (serviceEvents checks s)
    · rw [← htr]
      exact trailing_all_error _

/-- Two sorted lists that are permutations of each other and whose sort
keys are pairwise distinct are equal. -/
theorem sorted_perm_eq : ∀ l1 l2 : List StatusCheck,
    l1.Sorted tsLe → l2.Sorted tsLe → l1.Perm l2 →
    (l1.map StatusCheck.timestamp).Nodup → l1 = l2 := by
  intro l1
  induction l1 with
  | nil =>
    intro l2 _ _ p _
    exact p.nil_eq
  | cons a t1 ih =>
    intro l2 s1 s2 p nd
    cases l2 with
    | nil => exact absurd p.symm.nil_eq (by simp)
    | cons b t2 =>
      have hab : a = b := by
        have ha2 : a ∈ b :: t2 := p.subset (List.mem_cons_self a t1)
        rcases List.mem_cons.mp ha2 with h | ha2'
        · exact h
        · have hb1 : b ∈ a :: t1 := p.symm.subset (List.mem_cons_self b t2)
          rcases List.mem_cons.mp hb1 with h | hb1'
          · exact h.symm
          · have h1 : tsLe a b := (List.sorted_cons.mp s1).1 b hb1'
            have h2 : tsLe b a := (List.sorted_cons.mp s2).1 a ha2'
            have hts : a.timestamp = b.timestamp := Nat.le_antisymm h1 h2
            have hbm : a.timestamp ∈ t1.map StatusCheck.timestamp := by
              rw [hts]
              exact List.mem_map_of_mem StatusCheck.timestamp hb1'
            rw [List.map_cons] at nd
            exact absurd hbm (List.nodup_cons.mp nd).1
      subst hab
      have pt : t1.Perm t2 := p.cons_inv
      rw [List.map_cons] at nd
      rw [ih t2 (List.sorted_cons.mp s1).2 (List.sorted_cons.mp s2).2 pt
        (List.nodup_cons.mp nd).2]

/-- C5 counterexample: two observations share a timestamp with
conflicting statuses for the same service; swapping them changes the
reconstruction (the stable sort preserves the input order of ties, and
the replay outcome depends on it). -/
theorem claim_C5_counterexample :
    ([⟨0, [⟨"a", Status.ok, none⟩]⟩, ⟨0, [⟨"a", Status.error, some "x"⟩]⟩]
        : List StatusCheck).Perm
      [⟨0, [⟨"a", Status.error, some "x"⟩]⟩, ⟨0, [⟨"a", Status.ok, none⟩]⟩]
    ∧ findCurrentOutages
        [⟨0, [⟨"a", Status.ok, none⟩]⟩, ⟨0, [⟨"a", Status.error, some "x"⟩]⟩] 9
      ≠ findCurrentOutages
        [⟨0, [⟨"a", Status.error, some "x"⟩]⟩, ⟨0, [⟨"a", Status.ok, none⟩]⟩]
        9 := by
  constructor
  · exact List.Perm.swap _ _ []
  · decide

/-- C5 (amended): when all observation timestamps are pairwise distinct,
the reconstruction is invariant under permutations of the input; with
duplicate timestamps the tie order of the stable sort can change the
result. -/
theorem claim_C5_amended (l1 l2 : List StatusCheck) (now : Nat)
    (hnd : (l1.map StatusCheck.timestamp).Nodup) (hp : l1.Perm l2) :
    findCurrentOutages l1 now = findCurrentOutages l2 now := by
  have hs1 : (sortChecks l1).Sorted tsLe := List.sorted_insertionSort tsLe l1
  have hs2 : (sortChecks l2).Sorted tsLe := List.sorted_insertionSort tsLe l2
  have hp1 : (sortChecks l1).Perm l1 := List.perm_insertionSort tsLe l1
  have hp2 : (sortChecks l2).Perm l2 := List.perm_insertionSort tsLe l2
  have hperm : (sortChecks l1).Perm (sortChecks l2) :=
    hp1.trans (hp.trans hp2.symm)
  have hnd1 : ((sortChecks l1).map StatusCheck.timestamp).Nodup :=
    (hp1.map StatusCheck.timestamp).nodup_iff.mpr hnd
  have heq : sortChecks l1 = sortChecks l2 :=
    sorted_perm_eq (sortChecks l1) (sortChecks l2) hs1 hs2 hperm hnd1
  simp only [findCurrentOutages]
  rw [heq]

theorem claim_C5_witness :
    findCurrentOutages
        [⟨0, [⟨"a", Status.ok, none⟩]⟩, ⟨1, [⟨"a", Status.error, some "x"⟩]⟩] 9
      = findCurrentOutages
        [⟨1, [⟨"a", Status.error, some "x"⟩]⟩, ⟨0, [⟨"a", Status.ok, none⟩]⟩]
        9 :=
  claim_C5_amended _ _ 9 (by decide) (List.Perm.swap _ _ [])

theorem claim_C4_witness :
    (∃ pre e0 rest,
        serviceEvents [⟨0, [⟨"a", Status.error, some "first"⟩]⟩,
          ⟨1, [⟨"a", Status.error, some "second"⟩]⟩] "a"
          = pre ++ (e0 :: rest) ∧
        (∀ e ∈ e0 :: rest, e.2.status = Status.error) ∧
        (∀ e, pre.getLast? = some e → e.2.status = Status.ok) ∧
        (⟨"a", 0, 5, "first", true⟩ : Outage).error = orUnknown e0.2.error)
    ∧ orUnknown none = "Unknown error"
    ∧ orUnknown (some "") = "Unknown error" :=
  claim_C4 [⟨0, [⟨"a", Status.error, some "first"⟩]⟩,
      ⟨1, [⟨"a", Status.error, some "second"⟩]⟩] 5 "a"
    ⟨"a", 0, 5, "first", true⟩ (by decide)

/-! ## Claims about the alert-decision pipeline -/

theorem cleanLedger_cons (p : String × Nat) (t : List (String × Nat))
    (co : List (String × Outage)) :
    cleanLedger (p :: t) co =
      if mapHas co p.1 then p :: cleanLedger t co else cleanLedger t co := by
  by_cases hp : mapHas co p.1 <;> simp [cleanLedger, List.filter_cons, hp]

/-- C6: the ledger cleanup removes exactly the keys that have no entry in
the current outage mapping, and every surviving entry keeps its stored
timestamp (the cleaned ledger is a sublist of the original). -/
theorem claim_C6 (reported : List (String × Nat))
    (currentOutages : List (String × Outage)) (s : String) :
    (mapGet (cleanLedger reported currentOutages) s
      = if mapHas currentOutages s then mapGet reported s else none)
    ∧ (cleanLedger reported currentOutages).Sublist reported := by
  constructor
  · induction reported with
    | nil =>
      cases h : mapHas currentOutages s <;> simp [cleanLedger, mapGet, h]
    | cons p t ih =>
      rw [cleanLedger_cons]
      by_cases hp : mapHas currentOutages p.1
      · rw [if_pos hp, mapGet_cons]
        by_cases hps : p.1 = s
        · rw [if_pos hps, ← hps, if_pos hp, mapGet_cons, if_pos rfl]
        · rw [if_neg hps, ih]
          cases h : mapHas currentOutages s <;>
            simp [h, mapGet_cons, hps]
      · rw [if_neg hp, ih]
        by_cases hps : p.1 = s
        · rw [← hps]
          have hpb : mapHas currentOutages p.1 = false := by
            revert hp
            cases mapHas currentOutages p.1 <;> simp
          rw [hpb]
          simp
        · cases h : mapHas currentOutages s <;>
            simp [h, mapGet_cons, hps]
  · exact List.filter_sublist reported

/-- C2 counterexample: with cleaned ledger `{a: 0}` and outage encounter
order `[b, a]`, the run's toAlert is `["b", "a"]`: it contains service
`"a"` although `"a"` is a key of the cleaned ledger (the stored `0` is
falsy), and the list is not sorted ascending by service name. -/
theorem claim_C2_counterexample :
    mapGet (cleanLedger [("a", 0)]
        (findCurrentOutages [⟨0, [⟨"b", Status.error, some "x"⟩]⟩,
          ⟨60000, [⟨"a", Status.error, some "y"⟩]⟩] 2400000)) "a" = some 0
    ∧ (computeToAlert [("a", 0)]
        (findCurrentOutages [⟨0, [⟨"b", Status.error, some "x"⟩]⟩,
          ⟨60000, [⟨"a", Status.error, some "y"⟩]⟩] 2400000)).map
        Outage.service = ["b", "a"] := by
  constructor
  · decide
  · decide

/-- C2 (amended): toAlert consists exactly of the outages whose duration
is at least the threshold (boundary inclusive) and whose service has no
truthy entry in the cleaned ledger (no entry at all, or a stored 0), in
the encounter order of the outage mapping — a sublist of it, not sorted
by service name; and the run reports exactly this list. -/
theorem claim_C2_amended :
    (∀ (reported : List (String × Nat)) (co : List (String × Outage))
        (o : Outage),
      o ∈ computeToAlert reported co ↔
        o ∈ co.map Prod.snd ∧ NOTIFICATION_THRESHOLD ≤ o.duration ∧
          truthyNat (mapGet (cleanLedger reported co) o.service) = false)
    ∧ (∀ (reported : List (String × Nat)) (co : List (String × Outage)),
        (computeToAlert reported co).Sublist (co.map Prod.snd))
    ∧ (∀ (reported : List (String × Nat)) (checks : List StatusCheck)
        (now : Nat) (dispatch : DispatchResult) (stamp : Nat),
        (sendSlackNotification reported checks now dispatch stamp).toAlert
          = computeToAlert reported (findCurrentOutages checks now)) := by
  refine ⟨?_, ?_, ?_⟩
  · intro reported co o
    simp only [computeToAlert, newOutagesOf, longOutagesOf, List.mem_filter,
      and_assoc, Bool.not_eq_true, decide_eq_true_eq]
  · intro reported co
    exact (List.filter_sublist _).trans (List.filter_sublist _)
  · intro reported checks now dispatch stamp
    simp only [sendSlackNotification]
    by_cases hl : (longOutagesOf (findCurrentOutages checks now)).isEmpty = true
    · rw [if_pos hl]
      have hnil : longOutagesOf (findCurrentOutages checks now) = [] :=
        List.isEmpty_iff.mp hl
      simp [computeToAlert, hnil, newOutagesOf]
    · rw [if_neg hl]
      by_cases hn : (newOutagesOf
          (cleanLedger reported (findCurrentOutages checks now))
          (longOutagesOf (findCurrentOutages checks now))).isEmpty = true
      · rw [if_pos hn]
        have hnil : newOutagesOf
            (cleanLedger reported (findCurrentOutages checks now))
            (longOutagesOf (findCurrentOutages checks now)) = [] :=
          List.isEmpty_iff.mp hn
        simpa [computeToAlert] using hnil.symm
      · rw [if_neg hn]
        cases dispatch with
        | resp status =>
          dsimp only
          by_cases h2 : 200 ≤ status ∧ status < 300
          · rw [if_pos h2]
            rfl
          · rw [if_neg h2]
            rfl
        | thrown => rfl

/-- C7 counterexample: when the dispatcher call throws, the run exits
with status 1 without reaching the `saveReportedOutages` call, so not
even the cleanup portion of the ledger is persisted. -/
theorem claim_C7_counterexample :
    (sendSlackNotification [] [⟨0, [⟨"a", Status.error, some "x"⟩]⟩]
        1200000 DispatchResult.thrown 99).savedLedger = none
    ∧ (sendSlackNotification [] [⟨0, [⟨"a", Status.error, some "x"⟩]⟩]
        1200000 DispatchResult.thrown 99).exitCode = 1 := by
  constructor
  · decide
  · decide

/-- C7 (amended): when there is something to alert and the dispatcher
call throws (network failure, timeout, or a client that throws on
non-2xx), no service is stamped as alerted and the run exits with fatal
status 1, but nothing is persisted — the cleanup portion of the ledger is
lost; when the dispatcher returns a non-2xx response without throwing, no
service is stamped and the cleaned ledger is persisted, but the run exits
successfully (status 0). -/
theorem claim_C7_amended (reported : List (String × Nat))
    (checks : List StatusCheck) (now : Nat) (stamp : Nat) (status : Nat)
    (hne : computeToAlert reported (findCurrentOutages checks now) ≠ [])
    (hbad : ¬ (200 ≤ status ∧ status < 300)) :
    (sendSlackNotification reported checks now DispatchResult.thrown stamp
      = ⟨none, true,
         computeToAlert reported (findCurrentOutages checks now), 1⟩)
    ∧ (sendSlackNotification reported checks now (DispatchResult.resp status)
        stamp
      = ⟨some (cleanLedger reported (findCurrentOutages checks now)), true,
         computeToAlert reported (findCurrentOutages checks now), 0⟩) := by
  have hl : ¬ (longOutagesOf (findCurrentOutages checks now)).isEmpty
      = true := by
    intro hc
    apply hne
    have hnil : longOutagesOf (findCurrentOutages checks now) = [] :=
      List.isEmpty_iff.mp hc
    simp [computeToAlert, hnil, newOutagesOf]
  have hn : ¬ (newOutagesOf
      (cleanLedger reported (findCurrentOutages checks now))
      (longOutagesOf (findCurrentOutages checks now))).isEmpty = true := by
    intro hc
    exact hne (List.isEmpty_iff.mp hc)
  constructor
  · simp only [sendSlackNotification]
    rw [if_neg hl, if_neg hn]
    rfl
  · simp only [sendSlackNotification]
    rw [if_neg hl, if_neg hn, if_neg hbad]
    rfl

theorem claim_C7_witness :
    (sendSlackNotification [] [⟨0, [⟨"a", Status.error, some "x"⟩]⟩] 1200000
        DispatchResult.thrown 99
      = ⟨none, true, computeToAlert []
          (findCurrentOutages [⟨0, [⟨"a", Status.error, some "x"⟩]⟩] 1200000),
        1⟩)
    ∧ (sendSlackNotification [] [⟨0, [⟨"a", Status.error, some "x"⟩]⟩] 1200000
        (DispatchResult.resp 500) 99
      = ⟨some (cleanLedger []
          (findCurrentOutages [⟨0, [⟨"a", Status.error, some "x"⟩]⟩] 1200000)),
        true, computeToAlert []
          (findCurrentOutages [⟨0, [⟨"a", Status.error, some "x"⟩]⟩] 1200000),
        0⟩) :=
  claim_C7_amended [] [⟨0, [⟨"a", Status.error, some "x"⟩]⟩] 1200000 99 500
    (by decide) (by decide)

/-- C9: a cleaned-ledger entry that stores the numeric timestamp 0 is
falsy for the dedupe check (`!updatedReportedOutages[outage.service]`
tests truthiness, not key presence), so the service is included in
toAlert when its outage meets the threshold. -/
theorem claim_C9 (reported : List (String × Nat))
    (co : List (String × Outage)) (o : Outage)
    (hmem : o ∈ co.map Prod.snd)
    (hdur : NOTIFICATION_THRESHOLD ≤ o.duration)
    (hzero : mapGet (cleanLedger reported co) o.service = some 0) :
    o ∈ computeToAlert reported co := by
  simp [computeToAlert, newOutagesOf, longOutagesOf, List.mem_filter,
    hmem, hdur, hzero, truthyNat]

theorem claim_C9_witness :
    (⟨"a", 0, 1200000, "x", true⟩ : Outage) ∈ computeToAlert [("a", 0)]
      [("a", ⟨"a", 0, 1200000, "x", true⟩)] :=
  claim_C9 [("a", 0)] [("a", ⟨"a", 0, 1200000, "x", true⟩)]
    ⟨"a", 0, 1200000, "x", true⟩ (by decide) (by decide) (by decide)

/-- C10: whenever toAlert is empty — no outage over threshold, or all
over-threshold outages already (truthily) in the cleaned ledger — the run
makes no dispatcher call, still persists the cleaned ledger, and exits
successfully. -/
theorem claim_C10 (reported : List (String × Nat))
    (checks : List StatusCheck) (now : Nat) (dispatch : DispatchResult)
    (stamp : Nat)
    (hempty : computeToAlert reported (findCurrentOutages checks now) = []) :
    sendSlackNotification reported checks now dispatch stamp
      = ⟨some (cleanLedger reported (findCurrentOutages checks now)),
         false, [], 0⟩ := by
  simp only [sendSlackNotification]
  by_cases hl : (longOutagesOf (findCurrentOutages checks now)).isEmpty = true
  · rw [if_pos hl]
  · rw [if_neg hl]
    have hn : (newOutagesOf
        (cleanLedger reported (findCurrentOutages checks now))
        (longOutagesOf (findCurrentOutages checks now))).isEmpty = true := by
      rw [List.isEmpty_iff]
      exact hempty
    rw [if_pos hn]

theorem claim_C10_witness :
    sendSlackNotification [("a", 7)] [] 0 DispatchResult.thrown 99
      = ⟨some (cleanLedger [("a", 7)] (findCurrentOutages [] 0)),
         false, [], 0⟩ :=
  claim_C10 [("a", 7)] [] 0 DispatchResult.thrown 99 (by decide)

/-- C8: `formatDuration` rounds the millisecond amount to the nearest
whole minute `m` (the bracketing states `m` is the half-up rounding of
`ms / 60000`), prints `"{m}min"` when `m < 60` and
`"{h}hr {mm}min"` with two-digit minutes when `m ≥ 60`; in particular
125000 ms is "2min" and 3660000 ms is "1hr 01min". -/
theorem claim_C8 :
    formatDuration 125000 = "2min"
    ∧ formatDuration 3660000 = "1hr 01min"
    ∧ ∀ ms : Nat, ∃ m : Nat,
        (60000 * m ≤ ms + 30000 ∧ ms + 30000 < 60000 * (m + 1))
        ∧ (m < 60 → formatDuration ms = toString m ++ "min")
        ∧ (60 ≤ m → formatDuration ms
            = toString (m / 60) ++ "hr " ++ padStart2 (toString (m % 60))
              ++ "min") := by
  refine ⟨by decide, by decide, ?_⟩
  intro ms
  refine ⟨(ms + 30000) / 60000, ⟨?_, ?_⟩, ?_, ?_⟩
  · omega
  · omega
  · intro h
    simp only [formatDuration]
    rw [if_neg (by omega)]
  · intro h
    simp only [formatDuration]
    rw [if_pos (by omega)]

theorem claim_C8_witness : formatDuration 125000 = "2min" :=
  claim_C8.1

end StatusRepo
